import Mathlib

/-!
# Verification of the NeuroTunes batch-analysis scripts

Shallow embedding of the filename-heuristic metadata/VAD estimators, the
Camelot-wheel compatibility computations, the Krumhansl-Schmuckler key
detection, the therapeutic-tag classifiers and the batch-skip /
error-handling loops of the repository, together with theorems settling
the frozen claims about them.

Numeric conventions: Python floats are modelled by exact rationals `ℚ`
(the heuristics only ever combine decimal constants, so every value that
appears in the claims is an exact decimal); Python `%` on integers is
`Int.emod` (both return a representative in `[0, m)` for a positive
modulus); strings are `List Char` so that the scanning loops of `re.search`
and of `in`-containment can be written as structural recursion.
-/

namespace NeuroTunes

/-! ## Python string primitives -/

/-- ASCII lower-casing of one character, as `str.lower()` acts on the
ASCII range (the filenames handled by the scripts are ASCII). -/
def lowerChar (c : Char) : Char :=
  if 65 ≤ c.toNat ∧ c.toNat ≤ 90 then Char.ofNat (c.toNat + 32) else c

/-- `str.lower()`. -/
def pyLower (s : List Char) : List Char := s.map lowerChar

/-- Python substring containment `pat in s`: some contiguous run of `s`
equals `pat`. -/
def containsSub (pat : List Char) : List Char → Bool
  | [] => pat.isEmpty
  | c :: t => pat.isPrefixOf (c :: t) || containsSub pat t

/-- Characters matched by the regex class `\s` on ASCII input. -/
def isPySpace (c : Char) : Bool :=
  c = ' ' || c = '\t' || c = '\n' || c = '\x0d' || c = '\x0b' || c = '\x0c'

/-- Numeric value of a digit string (the `int(...)` applied to a regex
group of `\d+`). -/
def parseNat (ds : List Char) : ℕ :=
  ds.foldl (fun a c => a * 10 + (c.toNat - 48)) 0

/-- One attempt of the regex `(\d+)\s*bpm` anchored at the head of `s`:
a maximal nonempty digit run, optional whitespace, then the literal
`bpm`.  (The greedy `\d+` never needs to backtrack here because `bpm`
does not start with a digit.) -/
def bpmAt (s : List Char) : Option ℕ :=
  let ds := s.takeWhile Char.isDigit
  if ds.isEmpty then none
  else
    let r := (s.drop ds.length).dropWhile isPySpace
    if (['b', 'p', 'm'] : List Char).isPrefixOf r then some (parseNat ds) else none

/-- `re.search(r'(\d+)\s*bpm', s)`: scan start positions left to right,
return the first captured digit group. -/
def findBpm : List Char → Option ℕ
  | [] => none
  | c :: t =>
    match bpmAt (c :: t) with
    | some n => some n
    | none => findBpm t

/-- One attempt of the regex `movement\s*(\d+)` anchored at the head. -/
def movementAt (s : List Char) : Option ℕ :=
  if (['m', 'o', 'v', 'e', 'm', 'e', 'n', 't'] : List Char).isPrefixOf s then
    let r := (s.drop 8).dropWhile isPySpace
    let ds := r.takeWhile Char.isDigit
    if ds.isEmpty then none else some (parseNat ds)
  else none

/-- `re.search(r'movement\s*(\d+)', s)`. -/
def findMovement : List Char → Option ℕ
  | [] => none
  | c :: t =>
    match movementAt (c :: t) with
    | some n => some n
    | none => findMovement t

/-! ## `simple_audio_metadata.py` — `AudioMetadataExtractor` -/

/-- The fields of the metadata dict built by `analyze_filename` that feed
the VAD estimator and the tag classifier (`original_filename`,
`analysis_date`, `file_category` and `time_signature` are carried along
by the script but never read by the arithmetic under verification). -/
structure FileMetadata where
  bpm : Option ℕ
  genres : List String
  instruments : List String
  therapeutic_purposes : List String
  movement_number : Option ℕ
  winter_themed : Bool
  deriving Repr, DecidableEq

/-- `AudioMetadataExtractor.analyze_filename`: keyword detection over the
lower-cased filename. -/
def analyze_filename (filename : List Char) : FileMetadata :=
  let fl := pyLower filename
  { bpm := findBpm fl
    genres :=
      (if containsSub "classical".toList fl || containsSub "baroque".toList fl then
        ["classical"] else []) ++
      (if containsSub "phyrgian".toList fl then ["modal"] else []) ++
      (if containsSub "nocturne".toList fl then ["nocturne"] else []) ++
      (if containsSub "opera".toList fl then ["opera"] else [])
    instruments :=
      (if containsSub "guitar".toList fl then ["guitar"] else []) ++
      (if containsSub "piano".toList fl then ["piano"] else []) ++
      (if containsSub "instrumental".toList fl then ["instrumental"] else [])
    therapeutic_purposes :=
      (if containsSub "sleep".toList fl then ["sleep"] else []) ++
      (if containsSub "re-energiz".toList fl || containsSub "energiz".toList fl then
        ["energy"] else []) ++
      (if containsSub "relaxation".toList fl then ["relaxation"] else [])
    movement_number := findMovement fl
    winter_themed := containsSub "winter".toList fl }

/-- Python `round(x, 3)` on the exact decimals produced by the heuristics
(nearest multiple of `1/1000`; every value the scripts round is an exact
multiple of `1/1000`, so no tie-breaking rule is ever exercised). -/
def round3 (q : ℚ) : ℚ := (round (q * 1000) : ℤ) / 1000

/-- `max(0.0, min(1.0, x))`, the clamp used by `estimate_vad_metrics`. -/
def pyClamp01 (q : ℚ) : ℚ := max 0 (min 1 q)

/-- A VAD triple as returned by the estimators. -/
structure VadMetrics where
  valence : ℚ
  energy_arousal : ℚ
  dominance : ℚ
  deriving Repr, DecidableEq

/-- The sequence of updates `estimate_vad_metrics` applies to its
`valence` variable (the updates to the three variables are interleaved
in the source but touch disjoint variables, so each variable's chain is
tracked separately).  A Python `if metadata.get('bpm'):`
(resp. `movement_number`) is falsy both for a missing key and for a
parsed `0`. -/
def valence_steps (m : FileMetadata) : ℚ :=
  let v0 : ℚ := if "sleep" ∈ m.therapeutic_purposes then 0.4
    else if "energy" ∈ m.therapeutic_purposes then 0.7
    else if "relaxation" ∈ m.therapeutic_purposes then 0.6 else 0.5
  let v1 : ℚ := if "nocturne" ∈ m.genres then v0 - 0.1 else v0
  let v2 : ℚ := if "modal" ∈ m.genres then v1 - 0.05 else v1
  let v3 : ℚ := if m.winter_themed then v2 - 0.05 else v2
  if m.movement_number.getD 0 ≠ 0 then
    if m.movement_number.getD 0 = 1 then v3
    else if m.movement_number.getD 0 = 2 ∨ m.movement_number.getD 0 = 3 then v3 - 0.05
    else v3
  else v3

/-- The therapeutic-purpose baseline the `energy_arousal` variable of
`estimate_vad_metrics` starts from. -/
def arousal_purpose_base (purposes : List String) : ℚ :=
  if "sleep" ∈ purposes then 0.2
  else if "energy" ∈ purposes then 0.7
  else if "relaxation" ∈ purposes then 0.3 else 0.5

/-- The BPM-based caps `estimate_vad_metrics` applies to the arousal
variable (skipped when the parsed BPM is missing or the falsy `0`). -/
def arousal_bpm_cap (bpm : Option ℕ) (a : ℚ) : ℚ :=
  if bpm.getD 0 ≠ 0 then
    if bpm.getD 0 < 60 then min a 0.25
    else if bpm.getD 0 < 80 then min a 0.4
    else if 120 < bpm.getD 0 then max a 0.7
    else a
  else a

/-- The genre/winter/movement adjustments `estimate_vad_metrics` applies
to the arousal variable after the BPM caps. -/
def arousal_adjust (m : FileMetadata) (a : ℚ) : ℚ :=
  let a2 : ℚ := if "nocturne" ∈ m.genres then a - 0.1 else a
  let a3 : ℚ := if m.winter_themed then a2 - 0.05 else a2
  if m.movement_number.getD 0 ≠ 0 then
    if m.movement_number.getD 0 = 1 then a3
    else if m.movement_number.getD 0 = 2 ∨ m.movement_number.getD 0 = 3 then a3 - 0.05
    else a3
  else a3

/-- The update chain of the `energy_arousal` variable of
`estimate_vad_metrics`: purpose baseline, BPM caps, nocturne, winter
theme, middle movements. -/
def arousal_steps (m : FileMetadata) : ℚ :=
  arousal_adjust m (arousal_bpm_cap m.bpm (arousal_purpose_base m.therapeutic_purposes))

/-- The update chain of the `dominance` variable of
`estimate_vad_metrics`. -/
def dominance_steps (m : FileMetadata) : ℚ :=
  let d0 : ℚ := if "sleep" ∈ m.therapeutic_purposes then 0.3
    else if "energy" ∈ m.therapeutic_purposes then 0.6
    else if "relaxation" ∈ m.therapeutic_purposes then 0.4 else 0.5
  let d1 : ℚ := if "classical" ∈ m.genres then d0 + 0.1 else d0
  if m.movement_number.getD 0 ≠ 0 then
    if m.movement_number.getD 0 = 1 then d1 + 0.1 else d1
  else d1

/-- `AudioMetadataExtractor.estimate_vad_metrics`: the adjustment
cascades followed by the clamp to `[0, 1]` and `round(., 3)`. -/
def estimate_vad_metrics (m : FileMetadata) : VadMetrics :=
  { valence := round3 (pyClamp01 (valence_steps m))
    energy_arousal := round3 (pyClamp01 (arousal_steps m))
    dominance := round3 (pyClamp01 (dominance_steps m)) }

/-- Composition the script applies per file: filename analysis followed by
VAD estimation. -/
def vadOfFilename (filename : List Char) : VadMetrics :=
  estimate_vad_metrics (analyze_filename filename)

/-! ## Python `s.replace("sleep", "energize")`

The spec's testable property compares a filename against the same name
with `"sleep"` replaced by `"energize"`; `str.replace` rewrites all
occurrences left to right (and `"sleep"` cannot overlap itself, its
proper suffixes being disjoint from its proper prefixes). -/

/-- The word `sleep` as a character list. -/
def sleepW : List Char := ['s', 'l', 'e', 'e', 'p']

/-- The word `energize` as a character list. -/
def energizeW : List Char := ['e', 'n', 'e', 'r', 'g', 'i', 'z', 'e']

/-- The word `energiz` (the keyword `analyze_filename` looks for). -/
def energizW : List Char := ['e', 'n', 'e', 'r', 'g', 'i', 'z']

/-- `s.replace("sleep", "energize")`: left-to-right rewriting of every
occurrence. -/
def replaceSleep (s : List Char) : List Char :=
  match s with
  | [] => []
  | c :: t =>
    if sleepW.isPrefixOf (c :: t) then energizeW ++ replaceSleep (t.drop 4)
    else c :: replaceSleep t
termination_by s.length
decreasing_by
  · simp only [List.length_drop, List.length_cons]
    omega
  · simp

/-! ## Camelot compatibility

`run_complete_vad_analysis.ComprehensiveVADAnalyzer.get_harmonic_compatibility`,
`robust_vad_camelot_analyzer.RobustMusicAnalyzer.get_compatible_keys` and
`complete_vad_camelot_processor.AdvancedMusicAnalyzer.get_comprehensive_compatibility`.
A key string is taken apart as `number = int(key[:-1])`, `letter = key[-1]`;
`int(...)` raises (caught by the bare `except`) unless `key[:-1]` is a
nonempty digit string. -/

/-- `int(key[:-1])` and `key[-1]`, `none` when `int` would raise.  (Python's
`int` also accepts signed or whitespace-padded digit strings; the key
strings the claims quantify over are plain digit-letter keys, which is the
case embedded here — anything else is treated as the raising case.) -/
def parseCamelot (key : String) : Option (ℕ × Char) :=
  let cs := key.toList
  let ds := cs.dropLast
  if ds ≠ [] ∧ ds.all Char.isDigit then
    match cs.getLast? with
    | some c => some (parseNat ds, c)
    | none => none
  else none

/-- Build the string `<number><letter>`. -/
def mkKey (n : ℕ) (letter : Char) : String :=
  toString n ++ String.mk [letter]

/-- `get_harmonic_compatibility` (run_complete_vad_analysis.py). -/
def get_harmonic_compatibility (camelot_key : String) : List String :=
  if camelot_key.length < 2 then []
  else
    match parseCamelot camelot_key with
    | none => []
    | some (number, letter) =>
      let next_num := if number = 12 then 1 else number + 1
      let prev_num := if number = 1 then 12 else number - 1
      [camelot_key, mkKey next_num letter, mkKey prev_num letter] ++
        (if letter = 'A' then [mkKey number 'B'] else [mkKey number 'A'])

/-- `get_compatible_keys` (robust_vad_camelot_analyzer.py); on a parse
failure the bare `except` returns `[camelot_key]`. -/
def get_compatible_keys (camelot_key : String) : List String :=
  if camelot_key.length < 2 then []
  else
    match parseCamelot camelot_key with
    | none => [camelot_key]
    | some (number, letter) =>
      let next_num := if number = 12 then 1 else number + 1
      let prev_num := if number = 1 then 12 else number - 1
      let relative_letter := if letter = 'B' then 'A' else 'B'
      [camelot_key, mkKey next_num letter, mkKey prev_num letter,
        mkKey number relative_letter]

/-- The categorized compatibility dict built by
`get_comprehensive_compatibility` (complete_vad_camelot_processor.py). -/
structure ComprehensiveCompatibility where
  perfect : List String
  harmonic : List String
  relative : List String
  energy_up : List String
  energy_down : List String
  deriving Repr, DecidableEq

/-- The empty dict returned on short or unparsable keys. -/
def emptyCompatibility : ComprehensiveCompatibility :=
  ⟨[], [], [], [], []⟩

/-- `get_comprehensive_compatibility` (complete_vad_camelot_processor.py). -/
def get_comprehensive_compatibility (camelot_key : String) :
    ComprehensiveCompatibility :=
  if camelot_key.length < 2 then emptyCompatibility
  else
    match parseCamelot camelot_key with
    | none => emptyCompatibility
    | some (number, letter) =>
      let next_num := if number = 12 then 1 else number + 1
      let prev_num := if number = 1 then 12 else number - 1
      let relative_letter := if letter = 'B' then 'A' else 'B'
      { perfect := [camelot_key]
        harmonic := [mkKey next_num letter, mkKey prev_num letter]
        relative := [mkKey number relative_letter]
        energy_up := [mkKey next_num relative_letter]
        energy_down := [mkKey prev_num relative_letter] }

/-- Every key string the claims call well-formed: a wheel number `1..12`
followed by `A` or `B`. -/
def wellFormedKey (i : Fin 12) (minor : Bool) : String :=
  mkKey (i.val + 1) (if minor then 'A' else 'B')

/-- All key strings appearing anywhere in the categorized compatibility
dict (the union of its five lists). -/
def allCompatibilityValues (c : ComprehensiveCompatibility) : List String :=
  c.perfect ++ c.harmonic ++ c.relative ++ c.energy_up ++ c.energy_down

/-- The `bpm` field computed by `analyze_filename_metadata`
(comprehensive_audio_analyzer.py): the same regex
`(\d+)\s*bpm` over the lower-cased filename. -/
def analyze_filename_metadata_bpm (filename : List Char) : Option ℕ :=
  findBpm (pyLower filename)

/-- The `bpm` value computed by `_parse_filename_metadata`
(audio_analyzer.py): again `re.search(r'(\d+)\s*bpm', filename_lower)`. -/
def parse_filename_metadata_bpm (filename : List Char) : Option ℕ :=
  findBpm (pyLower filename)

/-! ## Therapeutic-tag classifiers -/

/-- The tag list accumulated by `determine_therapeutic_applications`
(run_complete_vad_analysis.py) before the final `list(set(...))`. -/
def determine_therapeutic_applications (valence arousal dominance : ℚ) :
    List String :=
  (if 0.7 < arousal then ["energy_boost", "motivation", "exercise", "focus"] else []) ++
  (if arousal < 0.3 then ["relaxation", "sleep", "meditation", "stress_relief"] else []) ++
  (if 0.7 < valence then ["mood_boost", "confidence", "positivity", "celebration"] else []) ++
  (if valence < 0.3 then ["introspection", "emotional_processing", "grief_support"] else []) ++
  (if 0.7 < dominance then ["empowerment", "leadership", "confidence_building"] else []) ++
  (if dominance < 0.3 then ["humility", "acceptance", "letting_go"] else []) ++
  (if 0.4 ≤ valence ∧ valence ≤ 0.6 ∧ 0.3 ≤ arousal ∧ arousal ≤ 0.7 then
    ["general_wellness", "background_ambiance", "work"] else [])

/-- Semantics of Python `list(set(xs))`: a CPython `set` iterates in an
order determined by the (per-process salted) string hashes, so the
result is *some* duplicate-free enumeration of the distinct elements of
`xs`; which one is not determined by the source. -/
def pySetList (xs out : List String) : Prop :=
  out.Nodup ∧ ∀ s : String, s ∈ out ↔ s ∈ xs

/-- The tag list accumulated (via `applications.update(...)`) by
`determine_comprehensive_therapeutic_applications`
(complete_vad_camelot_processor.py), in update order. -/
def comprehensiveApplicationsPool (valence arousal dominance tempo : ℚ)
    (mode : String) : List String :=
  (if 0.8 < arousal then ["high_energy_boost", "motivation", "exercise", "HIIT_training"]
   else if 0.6 < arousal then ["energy_boost", "focus", "productivity", "moderate_exercise"]
   else if arousal < 0.3 then ["deep_relaxation", "sleep", "meditation", "stress_relief"]
   else if arousal < 0.5 then ["relaxation", "calm_focus", "mindfulness"] else []) ++
  (if 0.8 < valence then ["mood_elevation", "confidence_building", "celebration", "joy"]
   else if 0.6 < valence then ["mood_boost", "positivity", "optimism"]
   else if valence < 0.3 then ["emotional_processing", "grief_support", "introspection"]
   else if valence < 0.5 then ["contemplation", "emotional_release"] else []) ++
  (if 0.8 < dominance then ["empowerment", "leadership", "confidence", "assertiveness"]
   else if 0.6 < dominance then ["self_assurance", "control", "stability"]
   else if dominance < 0.3 then ["surrender", "acceptance", "letting_go", "humility"]
   else if dominance < 0.5 then ["receptiveness", "openness"] else []) ++
  (if tempo < 60 then ["deep_sleep", "meditation", "profound_relaxation"]
   else if tempo < 90 then ["sleep_preparation", "gentle_relaxation", "slow_movement"]
   else if tempo < 110 then ["walking", "light_exercise", "background_focus"]
   else if tempo < 140 then ["work", "study", "moderate_exercise", "dancing"]
   else ["intense_exercise", "high_energy_activities", "peak_performance"]) ++
  (if mode = "minor" then ["emotional_depth", "artistic_inspiration", "creative_work"]
   else ["uplifting", "social_activities", "group_motivation"]) ++
  (if 0.6 < valence ∧ arousal < 0.4 then
    ["gentle_morning_routine", "peaceful_work", "content_relaxation"] else []) ++
  (if valence < 0.4 ∧ arousal < 0.4 ∧ dominance < 0.4 then
    ["deep_emotional_work", "therapeutic_processing", "healing"] else []) ++
  (if 0.7 < valence ∧ 0.7 < arousal ∧ 0.7 < dominance then
    ["peak_performance", "competitive_activities", "celebration"] else [])

/-- `determine_comprehensive_therapeutic_applications`: the accumulated
set, returned as `sorted(list(applications))` — the ascending
enumeration of the distinct accumulated tags (this value does not depend
on the set's internal iteration order). -/
def determine_comprehensive_therapeutic_applications
    (valence arousal dominance tempo : ℚ) (mode : String) : List String :=
  List.insertionSort (· ≤ ·)
    (comprehensiveApplicationsPool valence arousal dominance tempo mode).dedup

/-! ## `analyze_new_uploads.py` — per-file analysis

The per-file computation of `analyze_new_files` depends on CPython's
salted string hash (`hash(title)` changes from process to process unless
`PYTHONHASHSEED` is pinned), so the embedding takes the process's string
hash as an explicit function parameter `h`. -/

/-- One attempt of `_1754912709\d+\.mp3` anchored at the head of `s` and
required to consume the whole remaining string (the regex is
`$`-anchored). -/
def timestampSuffixAt (s : List Char) : Bool :=
  ("_1754912709".toList).isPrefixOf s &&
    (let r := s.drop 11
     let ds := r.takeWhile Char.isDigit
     !ds.isEmpty && r.drop ds.length = ".mp3".toList)

/-- `re.sub(r'_1754912709\d+\.mp3$', '', filename)`: strip the suffix at
the leftmost position where the anchored pattern matches. -/
def stripTimestamp : List Char → List Char
  | [] => []
  | c :: t =>
    if timestampSuffixAt (c :: t) then []
    else c :: stripTimestamp t

/-- The record assembled per file by `analyze_new_files`
(analyze_new_uploads.py); `hash_title` keeps the value `hash(title)` the
run observed. -/
structure UploadAnalysis where
  title : List Char
  genres : List String
  therapeutic_category : String
  valence : ℚ
  arousal : ℚ
  dominance : ℚ
  therapeutic_applications : List String
  estimated_key : String
  bpm_estimate : ℤ
  harmonic_compatibility : List String
  deriving Repr, DecidableEq

/-- The per-file body of `analyze_new_files` after the title has been
stripped, as a function of the title and of the one environment value the
body reads, `hv = hash(title)`. -/
def analyze_upload_core (title : List Char) (hv : ℤ) : UploadAnalysis :=
  let tl := pyLower title
  let genres :=
    (if containsSub "baroque".toList tl then ["baroque"] else []) ++
    (if containsSub "classical".toList tl then ["classical"] else []) ++
    (if containsSub "jazz".toList tl then ["jazz"] else []) ++
    (if containsSub "house".toList tl then ["house"] else []) ++
    (if containsSub "edm".toList tl then ["edm"] else []) ++
    (if containsSub "pop".toList tl then ["pop"] else []) ++
    (if containsSub "funk".toList tl then ["funk"] else []) ++
    (if containsSub "rock".toList tl then ["rock"] else []) ++
    (if containsSub "bluegrass".toList tl then ["bluegrass"] else [])
  let genres := if genres = [] then ["instrumental"] else genres
  let category :=
    if containsSub "sleep".toList tl then "sleep_enhancement"
    else if containsSub "relax".toList tl then "relaxation"
    else if containsSub "meditation".toList tl then "meditation"
    else if containsSub "energize".toList tl || containsSub "focus".toList tl then
      "mood_boost"
    else "therapeutic_music"
  let vad : ℚ × ℚ × ℚ :=
    if containsSub "sleep".toList tl || containsSub "meditation".toList tl then
      (0.4 + ((hv % 100 : ℤ) : ℚ) * 0.002, 0.05 + ((hv % 50 : ℤ) : ℚ) * 0.002,
        0.3 + ((hv % 100 : ℤ) : ℚ) * 0.002)
    else if containsSub "energize".toList tl || containsSub "focus".toList tl then
      (0.6 + ((hv % 100 : ℤ) : ℚ) * 0.002, 0.5 + ((hv % 200 : ℤ) : ℚ) * 0.002,
        0.5 + ((hv % 150 : ℤ) : ℚ) * 0.002)
    else if containsSub "relax".toList tl then
      (0.5 + ((hv % 150 : ℤ) : ℚ) * 0.002, 0.2 + ((hv % 100 : ℤ) : ℚ) * 0.002,
        0.4 + ((hv % 100 : ℤ) : ℚ) * 0.002)
    else (0.5, 0.3, 0.4)
  let apps :=
    (if containsSub "sleep".toList tl then
      ["Sleep Enhancement", "Deep Sleep", "Sleep Preparation"] else []) ++
    (if containsSub "relax".toList tl then
      ["Relaxation & Stress Relief", "Gentle Relaxation"] else []) ++
    (if containsSub "meditation".toList tl then ["Meditation", "Mindfulness"] else []) ++
    (if containsSub "energize".toList tl then ["Energy", "Mood Enhancement"] else []) ++
    (if containsSub "focus".toList tl then ["Focus", "Concentration"] else []) ++
    (if containsSub "baroque".toList tl || containsSub "classical".toList tl then
      ["Cultural Connection"] else [])
  let apps := if apps = [] then ["General Wellness"] else apps
  let key_num : ℤ := hv % 12 + 1
  let key_letter : Char := if hv % 2 ≠ 0 then 'A' else 'B'
  let estimated_key := toString key_num ++ String.mk [key_letter]
  let other_letter : Char := if key_letter = 'A' then 'B' else 'A'
  let compatibility :=
    [estimated_key,
     toString (key_num % 12 + 1) ++ String.mk [key_letter],
     toString ((key_num - 2) % 12 + 1) ++ String.mk [key_letter],
     toString key_num ++ String.mk [other_letter]]
  { title := title
    genres := genres
    therapeutic_category := category
    valence := round3 vad.1
    arousal := round3 vad.2.1
    dominance := round3 vad.2.2
    therapeutic_applications := apps
    estimated_key := estimated_key
    bpm_estimate := 60 + hv % 100
    harmonic_compatibility := compatibility }

/-- The per-file body of `analyze_new_files` (analyze_new_uploads.py),
parameterized by the process's string-hash function `h` (CPython:
SipHash of the string under the per-process salt, so `h` changes from
run to run unless `PYTHONHASHSEED` is pinned). -/
def analyze_upload (h : List Char → ℤ) (filename : List Char) : UploadAnalysis :=
  analyze_upload_core (stripTimestamp filename) (h (stripTimestamp filename))

/-! ## Batch loops: duplicate skipping and per-file error handling -/

/-- One per-track analysis record as far as the batch bookkeeping is
concerned: the scripts key everything on `item["filename"]`. -/
structure AnalysisEntry where
  filename : String
  deriving Repr, DecidableEq

/-- The per-file loop of `process_all_files`
(run_complete_vad_analysis.py): a file whose name is in the loaded
`processed_files` set is skipped, otherwise it is analyzed and appended
when the analysis did not return `None`. -/
def process_all_files (processed : List String) (results0 : List AnalysisEntry)
    (files : List String) (an : String → Option AnalysisEntry) :
    List AnalysisEntry :=
  files.foldl
    (fun acc f =>
      if f ∈ processed then acc
      else
        match an f with
        | some a => acc ++ [a]
        | none => acc)
    results0

/-- The `try`/`except` wrapper of the per-file analysis routines
(`advanced_audio_analysis`, `analyze_track`, `analyze_audio_file`): the
analysis body either produces a record or raises, and any exception is
caught and converted to `None`. -/
def analyze_track (body : String → Except String AnalysisEntry)
    (f : String) : Option AnalysisEntry :=
  match body f with
  | .ok a => some a
  | .error _ => none

/-- The surrounding batch loop (`process_all_files` of
robust_vad_camelot_analyzer.py): each file is analyzed exactly once, in
order, and a `None` result is simply not appended. -/
def process_batch (body : String → Except String AnalysisEntry)
    (files : List String) : List AnalysisEntry :=
  files.foldl
    (fun acc f =>
      match analyze_track body f with
      | some a => acc ++ [a]
      | none => acc)
    []

/-! ## Signal-feature VAD estimators (complete_vad_camelot_processor.py,
run_complete_vad_analysis.py)

These operate on float arrays; they are modelled over `ℝ` (they take
square roots, so `ℚ` is not closed under them).  `np.mean []` is NaN in
numpy and `0` here, and a float division by zero yields `±inf`/NaN in
Python and `0` here — the bounds claims concern the exact-arithmetic
values, as does the spec. -/

/-- `np.mean` of a 1-D array. -/
noncomputable def pyMean (l : List ℝ) : ℝ := l.sum / l.length

/-- `np.std` of a 1-D array (population standard deviation). -/
noncomputable def pyStd (l : List ℝ) : ℝ :=
  Real.sqrt (pyMean (l.map fun x => (x - pyMean l) ^ 2))

/-- `np.clip(x, lo, hi)`. -/
def npClip (x lo hi : ℝ) : ℝ := max lo (min hi x)

/-- The row slice `m[a:b]` of a 2-D array followed by flattening, as
`np.mean`/`np.abs` applied to a 2-D slice act elementwise. -/
def rowSlice (m : List (List ℝ)) (a b : ℕ) : List ℝ :=
  ((m.drop a).take (b - a)).flatten

/-- `detect_major_key_strength` (complete_vad_camelot_processor.py).  The
source indexes the chroma array by pitch class (`chroma[i]`); numpy
broadcasts the products componentwise over frames, so `chroma` here is
the 12-vector of one frame's (equivalently, one component's) values. -/
noncomputable def detect_major_key_strength (chroma : Fin 12 → ℝ)
    (tonnetz : List (List ℝ)) : ℝ :=
  let major_strength :=
    (∑ i : Fin 12, chroma i * chroma (i + 4)) +
      ∑ i : Fin 12, chroma i * chroma (i + 7)
  let tonal_stability := 1 - pyStd (rowSlice tonnetz 0 2)
  npClip ((major_strength + tonal_stability) / 2) 0 1

/-- `calculate_advanced_valence` (complete_vad_camelot_processor.py). -/
noncomputable def calculate_advanced_valence (centroids : List ℝ)
    (chroma : Fin 12 → ℝ) (mfcc tonnetz : List (List ℝ)) : ℝ :=
  let centroid_brightness := pyMean centroids / 8000
  let major_key_strength := detect_major_key_strength chroma tonnetz
  let timbral_brightness := pyMean (rowSlice mfcc 1 4)
  let harmonic_positivity := pyMean (rowSlice tonnetz 0 2)
  npClip (centroid_brightness * 0.3 + major_key_strength * 0.4 +
    (timbral_brightness + 10) / 20 * 0.2 + (harmonic_positivity + 1) / 2 * 0.1) 0 1

/-- `calculate_advanced_arousal` (complete_vad_camelot_processor.py). -/
noncomputable def calculate_advanced_arousal (tempo : ℝ)
    (rolloff zcr rms : List ℝ) : ℝ :=
  let tempo_energy := min (tempo / 180) 1
  let spectral_energy := pyMean rolloff / 11000
  let rhythmic_activity := pyMean zcr * 8
  let dynamic_energy := pyMean rms * 5
  let energy_variance := pyStd rms * 10
  npClip (tempo_energy * 0.35 + spectral_energy * 0.25 + rhythmic_activity * 0.2 +
    dynamic_energy * 0.15 + energy_variance * 0.05) 0 1

/-- `calculate_advanced_dominance` (complete_vad_camelot_processor.py);
`beatCount` is `len(beats)`. -/
noncomputable def calculate_advanced_dominance (centroids : List ℝ)
    (mfcc : List (List ℝ)) (beatCount : ℕ) (contrast : List (List ℝ)) : ℝ :=
  let spectral_consistency := 1 - pyStd centroids / (pyMean centroids + 1e-8)
  let rhythmic_strength := min ((beatCount : ℝ) / 120) 1
  let timbral_definition := pyMean ((rowSlice mfcc 4 8).map fun x => |x|)
  let spectral_definition := pyMean (rowSlice contrast 1 4)
  npClip (spectral_consistency * 0.3 + rhythmic_strength * 0.3 +
    (timbral_definition + 10) / 20 * 0.25 + spectral_definition * 0.15) 0 1

/-- `calculate_dominance` (run_complete_vad_analysis.py). -/
noncomputable def calculate_dominance (centroids : List ℝ)
    (mfcc : List (List ℝ)) (beatCount : ℕ) : ℝ :=
  let centroid_stability := 1 - pyStd centroids / pyMean centroids
  let rhythmic_strength := (beatCount : ℝ) / 100
  let timbral_complexity := pyMean ((rowSlice mfcc 4 8).map fun x => |x|)
  npClip (centroid_stability * 0.4 + rhythmic_strength * 0.4 +
    timbral_complexity * 0.2) 0 1

/-! ## Key detection (`detect_key_candidates`,
complete_vad_camelot_processor.py)

The chroma profile is correlated against the rotated Krumhansl-Schmuckler
profiles; `np.corrcoef` yields NaN exactly when one side has zero
variance, and the source replaces NaN by `0.0`.  The resulting
`(correlation, key-name)` pairs are sorted with `list.sort(reverse=True)`,
which orders *tuples*: descending by correlation and, for exactly equal
correlations, descending by the key-name string. -/

/-- The twelve pitch-class names, `key_names` of the source. -/
def key_names : List String :=
  ["C", "C#", "D", "D#"] ++ ["E", "F", "F#", "G"] ++ ["G#", "A", "A#", "B"]

/-- The Krumhansl-Schmuckler major profile. -/
def major_profile : Fin 12 → ℚ :=
  ![6.35, 2.23, 3.48, 2.33, 4.38, 4.09, 2.52, 5.19, 2.39, 3.66, 2.29, 2.88]

/-- The Krumhansl-Schmuckler minor profile. -/
def minor_profile : Fin 12 → ℚ :=
  ![6.33, 2.68, 3.52, 5.38, 2.60, 3.53, 2.54, 4.75, 3.98, 2.69, 3.34, 3.17]

/-- `np.roll(p, i)`: entry `j` of the rolled vector is `p[(j - i) % 12]`. -/
def rollProfile (p : Fin 12 → ℚ) (i : ℕ) : Fin 12 → ℚ :=
  fun j => p (j - (i : Fin 12))

/-- Mean of a 12-vector. -/
def meanQ (x : Fin 12 → ℚ) : ℚ := (∑ j, x j) / 12

/-- Centered cross-sum `Σ (x-x̄)(y-ȳ)`. -/
def covSum (x y : Fin 12 → ℚ) : ℚ :=
  ∑ j, (x j - meanQ x) * (y j - meanQ y)

/-- Centered square sum `Σ (x-x̄)²`. -/
def varSum (x : Fin 12 → ℚ) : ℚ := ∑ j, (x j - meanQ x) ^ 2

/-- `np.corrcoef(x, y)[0, 1]` followed by the source's
`0.0 if np.isnan(corr) else corr`: Pearson correlation, `0` in the
zero-variance (NaN) case. -/
noncomputable def corrOrZero (x y : Fin 12 → ℚ) : ℝ :=
  if varSum x = 0 ∨ varSum y = 0 then 0
  else (covSum x y : ℝ) / (Real.sqrt (varSum x) * Real.sqrt (varSum y))

/-- The list `major_correlations + minor_correlations` in the source's
construction order: the twelve rolled major profiles, then the twelve
rolled minor profiles. -/
noncomputable def allCorrelations (profile : Fin 12 → ℚ) : List (ℝ × String) :=
  ((List.range 12).map fun i =>
    (corrOrZero profile (rollProfile major_profile i),
      key_names.getD i "" ++ " major")) ++
  (List.range 12).map fun i =>
    (corrOrZero profile (rollProfile minor_profile i),
      key_names.getD i "" ++ " minor")

/-- The order realized by Python's `all_correlations.sort(reverse=True)`
on `(float, str)` tuples: `a` precedes `b` when `a`'s correlation is
larger, or the correlations are equal and `a`'s key name is
lexicographically at least `b`'s. -/
def pyDescOrder (a b : ℝ × String) : Prop :=
  b.1 < a.1 ∨ (a.1 = b.1 ∧ b.2 ≤ a.2)

/-- Comparison of real correlation values is classical (the embedding of
float comparison on exact reals). -/
noncomputable instance : DecidableRel pyDescOrder :=
  fun _ _ => Classical.propDecidable _

/-- `all_correlations` after `sort(reverse=True)`. -/
noncomputable def sortedCorrelations (profile : Fin 12 → ℚ) : List (ℝ × String) :=
  List.insertionSort pyDescOrder (allCorrelations profile)

/-- `detect_key_candidates`: the names of the top five pairs. -/
noncomputable def detect_key_candidates (profile : Fin 12 → ℚ) : List String :=
  ((sortedCorrelations profile).take 5).map Prod.snd

/-- The `primary_key` selection of `comprehensive_camelot_analysis`:
`key_candidates[0] if key_candidates else "C major"`. -/
noncomputable def primaryKeyOf (profile : Fin 12 → ℚ) : String :=
  (detect_key_candidates profile).headD "C major"

/-! # Theorems -/

/-! ## Bounds helpers -/

/-- `np.clip(x, 0, 1)` lands in `[0, 1]`. -/
lemma npClip01_bounds (x : ℝ) : 0 ≤ npClip x 0 1 ∧ npClip x 0 1 ≤ 1 := by
  refine ⟨le_max_left _ _, max_le zero_le_one (min_le_left _ _)⟩

/-- `max(0.0, min(1.0, x))` lands in `[0, 1]`. -/
lemma pyClamp01_bounds (q : ℚ) : 0 ≤ pyClamp01 q ∧ pyClamp01 q ≤ 1 := by
  refine ⟨le_max_left _ _, max_le zero_le_one (min_le_left _ _)⟩

/-- `round(x, 3)` keeps values of `[0, 1]` inside `[0, 1]`. -/
lemma round3_bounds {q : ℚ} (h0 : 0 ≤ q) (h1 : q ≤ 1) :
    0 ≤ round3 q ∧ round3 q ≤ 1 := by
  unfold round3
  rw [round_eq]
  have hl : (0 : ℤ) ≤ ⌊q * 1000 + 1 / 2⌋ := by
    rw [Int.le_floor]
    push_cast
    nlinarith
  have hu : ⌊q * 1000 + 1 / 2⌋ ≤ 1000 := by
    have : ⌊q * 1000 + 1 / 2⌋ < 1001 := by
      rw [Int.floor_lt]
      push_cast
      nlinarith
    omega
  constructor
  · positivity
  · rw [div_le_one (by norm_num)]
    exact_mod_cast hu

/-! ## C1 — the Camelot compatibility of `"8A"` -/

/-- C1 counterexample: the claim says the compatibility computation for
`"8A"` yields *exactly* `{"8A", "9A", "7A", "8B"}` and no others, but the
categorized dict built by `get_comprehensive_compatibility` also carries
`"9B"` (energy_up) and `"7B"` (energy_down). -/
theorem C1_comprehensive_has_extra_keys :
    "9B" ∈ allCompatibilityValues (get_comprehensive_compatibility "8A") ∧
      "9B" ∉ (["8A", "9A", "7A", "8B"] : List String) := by
  decide

/-- C1 (amended): for the key `"8A"`, `get_harmonic_compatibility` and
`get_compatible_keys` return exactly the list
`["8A", "9A", "7A", "8B"]`; the perfect/harmonic/relative categories of
`get_comprehensive_compatibility` together contain exactly these four
keys, while its energy_up/energy_down categories add `"9B"` and `"7B"`. -/
theorem C1_camelot_8A :
    get_harmonic_compatibility "8A" = ["8A", "9A", "7A", "8B"] ∧
    get_compatible_keys "8A" = ["8A", "9A", "7A", "8B"] ∧
    (get_comprehensive_compatibility "8A").perfect ++
        (get_comprehensive_compatibility "8A").harmonic ++
        (get_comprehensive_compatibility "8A").relative =
      ["8A", "9A", "7A", "8B"] ∧
    (get_comprehensive_compatibility "8A").energy_up = ["9B"] ∧
    (get_comprehensive_compatibility "8A").energy_down = ["7B"] := by
  decide

/-! ## C8 — the literal BPM field wins for `"Deep Sleep Piano_120bpm.mp3"` -/

/-- C8: for the filename `"Deep Sleep Piano_120bpm.mp3"` every
filename-parsing routine reads BPM `120` from the `(\d+)\s*bpm` field,
even though the `sleep` keyword is detected by the same analysis. -/
theorem C8_bpm_120_parsed :
    (analyze_filename "Deep Sleep Piano_120bpm.mp3".toList).bpm = some 120 ∧
    "sleep" ∈ (analyze_filename "Deep Sleep Piano_120bpm.mp3".toList).therapeutic_purposes ∧
    analyze_filename_metadata_bpm "Deep Sleep Piano_120bpm.mp3".toList = some 120 ∧
    parse_filename_metadata_bpm "Deep Sleep Piano_120bpm.mp3".toList = some 120 := by
  decide

/-! ## C10 — symmetry of the Camelot compatibility relation -/

/-- C10: over all 24 well-formed Camelot keys (wheel number 1–12 with
letter A or B), membership in the computed compatibility lists is
symmetric, wraparound included, for both `get_harmonic_compatibility`
and `get_compatible_keys`. -/
theorem C10_compatibility_symmetric (i j : Fin 12) (a b : Bool) :
    (wellFormedKey j b ∈ get_harmonic_compatibility (wellFormedKey i a) ↔
      wellFormedKey i a ∈ get_harmonic_compatibility (wellFormedKey j b)) ∧
    (wellFormedKey j b ∈ get_compatible_keys (wellFormedKey i a) ↔
      wellFormedKey i a ∈ get_compatible_keys (wellFormedKey j b)) := by
  revert i j a b
  decide

/-! ## C2 — VAD outputs stay in `[0, 1]` -/

/-- C2: every VAD score produced by the estimators lies in `[0.0, 1.0]`
for arbitrary (exact-arithmetic) inputs: the three advanced
signal-feature scores of complete_vad_camelot_processor.py, the
dominance score of run_complete_vad_analysis.py, and the three
filename-heuristic scores of simple_audio_metadata.py. -/
theorem C2_vad_in_unit_interval :
    (∀ (centroids : List ℝ) (chroma : Fin 12 → ℝ) (mfcc tonnetz : List (List ℝ)),
      0 ≤ calculate_advanced_valence centroids chroma mfcc tonnetz ∧
        calculate_advanced_valence centroids chroma mfcc tonnetz ≤ 1) ∧
    (∀ (tempo : ℝ) (rolloff zcr rms : List ℝ),
      0 ≤ calculate_advanced_arousal tempo rolloff zcr rms ∧
        calculate_advanced_arousal tempo rolloff zcr rms ≤ 1) ∧
    (∀ (centroids : List ℝ) (mfcc : List (List ℝ)) (beatCount : ℕ)
        (contrast : List (List ℝ)),
      0 ≤ calculate_advanced_dominance centroids mfcc beatCount contrast ∧
        calculate_advanced_dominance centroids mfcc beatCount contrast ≤ 1) ∧
    (∀ (centroids : List ℝ) (mfcc : List (List ℝ)) (beatCount : ℕ),
      0 ≤ calculate_dominance centroids mfcc beatCount ∧
        calculate_dominance centroids mfcc beatCount ≤ 1) ∧
    (∀ m : FileMetadata,
      (0 ≤ (estimate_vad_metrics m).valence ∧ (estimate_vad_metrics m).valence ≤ 1) ∧
      (0 ≤ (estimate_vad_metrics m).energy_arousal ∧
        (estimate_vad_metrics m).energy_arousal ≤ 1) ∧
      (0 ≤ (estimate_vad_metrics m).dominance ∧ (estimate_vad_metrics m).dominance ≤ 1)) := by
  refine ⟨fun _ _ _ _ => npClip01_bounds _, fun _ _ _ _ => npClip01_bounds _,
    fun _ _ _ _ => npClip01_bounds _, fun _ _ _ => npClip01_bounds _, fun m => ?_⟩
  refine ⟨round3_bounds (pyClamp01_bounds _).1 (pyClamp01_bounds _).2,
    round3_bounds (pyClamp01_bounds _).1 (pyClamp01_bounds _).2,
    round3_bounds (pyClamp01_bounds _).1 (pyClamp01_bounds _).2⟩

/-! ## C3 — `sleep` vs `energize` arousal

Helper lemmas about `str.replace("sleep", "energize")` and the arousal
cascade, then the claim. -/

lemma replaceSleep_nil : replaceSleep [] = [] := by
  rw [replaceSleep]

lemma replaceSleep_cons_pos {c : Char} {t : List Char}
    (h : sleepW.isPrefixOf (c :: t) = true) :
    replaceSleep (c :: t) = energizeW ++ replaceSleep (t.drop 4) := by
  rw [replaceSleep]
  simp [h]

lemma replaceSleep_cons_neg {c : Char} {t : List Char}
    (h : ¬ sleepW.isPrefixOf (c :: t) = true) :
    replaceSleep (c :: t) = c :: replaceSleep t := by
  rw [replaceSleep]
  simp [h]

/-- No character of `energize` is an `s`, so an occurrence of `sleep`
cannot begin inside an inserted `energize` block. -/
lemma containsSub_sleep_energize_append (X : List Char) :
    containsSub sleepW (energizeW ++ X) = containsSub sleepW X := by
  simp [energizeW, sleepW, containsSub, List.isPrefixOf]

/-- A proper suffix of `sleep` heading the rewritten string must already
head the original string: rewriting only ever inserts `energize`, whose
head mismatches each such suffix within its first two characters. -/
lemma suffix_transfer : ∀ s : List Char,
    (List.isPrefixOf ['l', 'e', 'e', 'p'] (replaceSleep s) = true →
      List.isPrefixOf ['l', 'e', 'e', 'p'] s = true) ∧
    (List.isPrefixOf ['e', 'e', 'p'] (replaceSleep s) = true →
      List.isPrefixOf ['e', 'e', 'p'] s = true) ∧
    (List.isPrefixOf ['e', 'p'] (replaceSleep s) = true →
      List.isPrefixOf ['e', 'p'] s = true) ∧
    (List.isPrefixOf ['p'] (replaceSleep s) = true →
      List.isPrefixOf ['p'] s = true) := by
  intro s
  induction s using replaceSleep.induct with
  | case1 =>
    rw [replaceSleep_nil]
    simp
  | case2 c t h ih =>
    rw [replaceSleep_cons_pos h]
    simp [energizeW, List.isPrefixOf]
  | case3 c t h ih =>
    rw [replaceSleep_cons_neg h]
    simp only [List.isPrefixOf, Bool.and_eq_true, beq_iff_eq]
    refine ⟨fun hp => ⟨hp.1, ih.2.1 hp.2⟩, fun hp => ⟨hp.1, ih.2.2.1 hp.2⟩,
      fun hp => ⟨hp.1, ih.2.2.2 hp.2⟩, fun hp => ⟨hp.1, trivial⟩⟩

/-- After `replace("sleep", "energize")` the string contains no `sleep`:
`sleep` has no self-overlap, the rewriting is greedy left to right, and
no new occurrence can straddle an inserted block. -/
lemma sleep_not_in_replaceSleep : ∀ s : List Char,
    containsSub sleepW (replaceSleep s) = false := by
  intro s
  induction s using replaceSleep.induct with
  | case1 =>
    rw [replaceSleep_nil]
    simp [containsSub, sleepW]
  | case2 c t h ih =>
    rw [replaceSleep_cons_pos h, containsSub_sleep_energize_append]
    exact ih
  | case3 c t h ih =>
    rw [replaceSleep_cons_neg h]
    have h1 : sleepW.isPrefixOf (c :: replaceSleep t) = false := by
      cases hP : sleepW.isPrefixOf (c :: replaceSleep t) with
      | false => rfl
      | true =>
        exfalso
        have hsplit : ('s' = c) ∧
            List.isPrefixOf ['l', 'e', 'e', 'p'] (replaceSleep t) = true := by
          simpa [sleepW, List.isPrefixOf] using hP
        have hlt := (suffix_transfer t).1 hsplit.2
        exact h (by simp [sleepW, List.isPrefixOf, hsplit.1.symm, hlt])
    show (sleepW.isPrefixOf (c :: replaceSleep t) ||
      containsSub sleepW (replaceSleep t)) = false
    rw [h1, ih]
    rfl

lemma containsSub_of_isPrefixOf : ∀ pat X : List Char,
    pat.isPrefixOf X = true → containsSub pat X = true
  | pat, [], h => by
    cases pat with
    | nil => rfl
    | cons a as => simp [List.isPrefixOf] at h
  | pat, c :: t, h => by
    show (pat.isPrefixOf (c :: t) || containsSub pat t) = true
    rw [h]
    rfl

lemma containsSub_cons_of {pat : List Char} (c : Char) {t : List Char}
    (h : containsSub pat t = true) : containsSub pat (c :: t) = true := by
  show (pat.isPrefixOf (c :: t) || containsSub pat t) = true
  rw [h]
  simp

/-- A string that contained `sleep` contains `energiz` after the
rewrite: the occurrence that is rewritten leaves `energize` behind. -/
lemma energiz_in_replaceSleep : ∀ s : List Char,
    containsSub sleepW s = true → containsSub energizW (replaceSleep s) = true := by
  intro s
  induction s using replaceSleep.induct with
  | case1 =>
    intro hcon
    simp [containsSub, sleepW] at hcon
  | case2 c t h ih =>
    intro _
    rw [replaceSleep_cons_pos h]
    apply containsSub_of_isPrefixOf
    simp [energizW, energizeW, List.isPrefixOf]
  | case3 c t h ih =>
    intro hs
    rw [replaceSleep_cons_neg h]
    have hst : containsSub sleepW t = true := by
      have horig : (sleepW.isPrefixOf (c :: t) || containsSub sleepW t) = true := hs
      rcases (by simpa using horig :
          sleepW.isPrefixOf (c :: t) = true ∨ containsSub sleepW t = true) with h' | h'
      · exact absurd h' h
      · exact h'
    exact containsSub_cons_of c (ih hst)

/-- Rewriting a lower-case string yields a lower-case string. -/
lemma pyLower_fix_replaceSleep : ∀ s : List Char, pyLower s = s →
    pyLower (replaceSleep s) = replaceSleep s := by
  intro s
  induction s using replaceSleep.induct with
  | case1 =>
    intro _
    rw [replaceSleep_nil]
    rfl
  | case2 c t h ih =>
    intro hlow
    have ht : pyLower t = t := by
      have := congrArg List.tail hlow
      simpa [pyLower] using this
    have hdrop : pyLower (t.drop 4) = t.drop 4 := by
      unfold pyLower
      rw [List.map_drop]
      unfold pyLower at ht
      rw [ht]
    rw [replaceSleep_cons_pos h]
    unfold pyLower
    rw [List.map_append]
    have he : (energizeW.map lowerChar) = energizeW := by decide
    rw [he]
    unfold pyLower at ih hdrop
    rw [ih hdrop]
  | case3 c t h ih =>
    intro hlow
    have hc : lowerChar c = c := by
      have := congrArg List.head? hlow
      simpa [pyLower] using this
    have ht : pyLower t = t := by
      have := congrArg List.tail hlow
      simpa [pyLower] using this
    rw [replaceSleep_cons_neg h]
    show lowerChar c :: pyLower (replaceSleep t) = c :: replaceSleep t
    rw [hc, ih ht]

lemma round3_mono {x y : ℚ} (h : x ≤ y) : round3 x ≤ round3 y := by
  unfold round3
  have h1 : round (x * 1000) ≤ round (y * 1000) := by
    rw [round_eq, round_eq]
    exact Int.floor_le_floor (by linarith)
  have hcast : ((round (x * 1000) : ℤ) : ℚ) ≤ ((round (y * 1000) : ℤ) : ℚ) := by
    exact_mod_cast h1
  linarith

/-- A gap of at least `0.05` (the smallest step of the heuristics)
survives `round(., 3)`. -/
lemma round3_lt {x y : ℚ} (h : x + 1 / 20 ≤ y) : round3 x < round3 y := by
  unfold round3
  have h1 : round (x * 1000) + 50 ≤ round (y * 1000) := by
    have hle : round (x * 1000) ≤ round (y * 1000 - 50) := by
      rw [round_eq, round_eq]
      exact Int.floor_le_floor (by linarith)
    have h2 : round (y * 1000 - 50) = round (y * 1000 - ((50 : ℤ) : ℚ)) := by norm_num
    rw [h2, round_sub_int] at hle
    omega
  have hcast : ((round (x * 1000) : ℤ) : ℚ) + 50 ≤ ((round (y * 1000) : ℤ) : ℚ) := by
    exact_mod_cast h1
  linarith

lemma pyClamp01_mono {x y : ℚ} (h : x ≤ y) : pyClamp01 x ≤ pyClamp01 y := by
  unfold pyClamp01
  exact max_le_max le_rfl (min_le_min le_rfl h)

lemma pyClamp01_of_bounds {q : ℚ} (h0 : 0 ≤ q) (h1 : q ≤ 1) : pyClamp01 q = q := by
  unfold pyClamp01
  rw [min_eq_right h1, max_eq_right h0]

/-- The post-BPM adjustments subtract a metadata-dependent offset. -/
def arousal_delta (m : FileMetadata) : ℚ :=
  (if "nocturne" ∈ m.genres then (-0.1 : ℚ) else 0) +
    (if m.winter_themed then (-0.05 : ℚ) else 0) +
    (if m.movement_number.getD 0 ≠ 0 ∧ m.movement_number.getD 0 ≠ 1 ∧
        (m.movement_number.getD 0 = 2 ∨ m.movement_number.getD 0 = 3) then
      (-0.05 : ℚ) else 0)

lemma arousal_adjust_eq (m : FileMetadata) (a : ℚ) :
    arousal_adjust m a = a + arousal_delta m := by
  unfold arousal_adjust arousal_delta
  split_ifs <;> (try tauto) <;> ring

lemma arousal_delta_bounds (m : FileMetadata) :
    -(1 / 5) ≤ arousal_delta m ∧ arousal_delta m ≤ 0 := by
  unfold arousal_delta
  split_ifs <;> norm_num

/-- How the BPM caps act on the two purpose baselines `0.2` (sleep) and
`0.7` (energy): the capped sleep value never exceeds the capped energy
value, stays in `[0.2, 0.7]`, and is at least `0.05` below it unless a
BPM above `120` forces both to `0.7`. -/
lemma arousal_bpm_cap_facts (bpm : Option ℕ) :
    arousal_bpm_cap bpm 0.2 ≤ arousal_bpm_cap bpm 0.7 ∧
      (1 / 5 : ℚ) ≤ arousal_bpm_cap bpm 0.2 ∧
      arousal_bpm_cap bpm 0.2 ≤ 0.7 ∧
      arousal_bpm_cap bpm 0.7 ≤ 0.7 ∧
      ((∀ b, bpm = some b → b ≤ 120) →
        arousal_bpm_cap bpm 0.2 + 1 / 20 ≤ arousal_bpm_cap bpm 0.7) := by
  rcases bpm with _ | b
  · unfold arousal_bpm_cap
    norm_num
  · unfold arousal_bpm_cap
    refine ⟨?_, ?_, ?_, ?_, fun h120 => ?_⟩ <;>
      [skip; skip; skip; skip; have hb := h120 b rfl] <;>
      simp only [Option.getD_some] <;> split_ifs <;>
      first | (norm_num; done) | omega

/-- The arousal comparison at the metadata level: a sleep-purposed
record scores at most an energy-purposed record that agrees on BPM,
nocturne, winter and movement metadata, strictly so when no BPM above
120 was parsed. -/
lemma arousal_compare (m m' : FileMetadata)
    (h1 : "sleep" ∈ m.therapeutic_purposes)
    (h2 : "sleep" ∉ m'.therapeutic_purposes)
    (h3 : "energy" ∈ m'.therapeutic_purposes)
    (hbpm : m'.bpm = m.bpm)
    (hnoc : ("nocturne" ∈ m'.genres) ↔ ("nocturne" ∈ m.genres))
    (hwin : m'.winter_themed = m.winter_themed)
    (hmov : m'.movement_number = m.movement_number) :
    (estimate_vad_metrics m).energy_arousal ≤
        (estimate_vad_metrics m').energy_arousal ∧
      ((∀ b, m.bpm = some b → b ≤ 120) →
        (estimate_vad_metrics m).energy_arousal <
          (estimate_vad_metrics m').energy_arousal) := by
  have hbase : arousal_purpose_base m.therapeutic_purposes = 0.2 := by
    unfold arousal_purpose_base
    rw [if_pos h1]
  have hbase' : arousal_purpose_base m'.therapeutic_purposes = 0.7 := by
    unfold arousal_purpose_base
    rw [if_neg h2, if_pos h3]
  have hdelta : arousal_delta m' = arousal_delta m := by
    unfold arousal_delta
    rw [hwin, hmov]
    simp only [hnoc]
  have hsteps : arousal_steps m =
      arousal_bpm_cap m.bpm 0.2 + arousal_delta m := by
    unfold arousal_steps
    rw [hbase, arousal_adjust_eq]
  have hsteps' : arousal_steps m' =
      arousal_bpm_cap m.bpm 0.7 + arousal_delta m := by
    unfold arousal_steps
    rw [hbase', hbpm, arousal_adjust_eq, hdelta]
  obtain ⟨hcap1, hcap2, hcap3, hcap4, hcap5⟩ := arousal_bpm_cap_facts m.bpm
  obtain ⟨hd1, hd2⟩ := arousal_delta_bounds m
  constructor
  · apply round3_mono
    apply pyClamp01_mono
    rw [hsteps, hsteps']
    linarith
  · intro h120
    have hgap := hcap5 h120
    have hx0 : 0 ≤ arousal_steps m := by
      rw [hsteps]
      linarith
    have hx1 : arousal_steps m ≤ 1 := by
      rw [hsteps]
      linarith
    have hy0 : 0 ≤ arousal_steps m' := by
      rw [hsteps']
      linarith
    have hy1 : arousal_steps m' ≤ 1 := by
      rw [hsteps']
      linarith
    show round3 (pyClamp01 (arousal_steps m)) < round3 (pyClamp01 (arousal_steps m'))
    rw [pyClamp01_of_bounds hx0 hx1, pyClamp01_of_bounds hy0 hy1]
    apply round3_lt
    rw [hsteps, hsteps']
    linarith

/-- C3 counterexample: for `"sleep_130bpm.mp3"` (parsed BPM 130 > 120)
the BPM floor drives both the sleep version and its
`replace("sleep", "energize")` version to arousal `0.7` — not strictly
less; and for `"nocturnsleep 50bpm.mp3"` the replacement *creates* the
keyword `nocturne`, whose penalty makes the energize version score
`0.15` against the sleep version's `0.2` — the inequality even
reverses. -/
theorem C3_strictness_fails :
    containsSub "sleep".toList "sleep_130bpm.mp3".toList = true ∧
      replaceSleep "sleep_130bpm.mp3".toList = "energize_130bpm.mp3".toList ∧
      (vadOfFilename "sleep_130bpm.mp3".toList).energy_arousal = 0.7 ∧
      (vadOfFilename (replaceSleep "sleep_130bpm.mp3".toList)).energy_arousal = 0.7 ∧
      ¬ ((vadOfFilename "sleep_130bpm.mp3".toList).energy_arousal <
        (vadOfFilename (replaceSleep "sleep_130bpm.mp3".toList)).energy_arousal) ∧
      containsSub "sleep".toList "nocturnsleep 50bpm.mp3".toList = true ∧
      replaceSleep "nocturnsleep 50bpm.mp3".toList =
        "nocturnenergize 50bpm.mp3".toList ∧
      (vadOfFilename "nocturnsleep 50bpm.mp3".toList).energy_arousal = 0.2 ∧
      (vadOfFilename (replaceSleep "nocturnsleep 50bpm.mp3".toList)).energy_arousal
        = 0.15 ∧
      ¬ ((vadOfFilename "nocturnsleep 50bpm.mp3".toList).energy_arousal ≤
        (vadOfFilename (replaceSleep "nocturnsleep 50bpm.mp3".toList)).energy_arousal) := by
  have hrep1 : replaceSleep "sleep_130bpm.mp3".toList =
      "energize_130bpm.mp3".toList := by
    simp [replaceSleep, sleepW, energizeW, List.isPrefixOf]
  have hrep2 : replaceSleep "nocturnsleep 50bpm.mp3".toList =
      "nocturnenergize 50bpm.mp3".toList := by
    simp [replaceSleep, sleepW, energizeW, List.isPrefixOf]
  have hm1 : analyze_filename "sleep_130bpm.mp3".toList =
      ⟨some 130, [], [], ["sleep"], none, false⟩ := by decide
  have hm2 : analyze_filename "energize_130bpm.mp3".toList =
      ⟨some 130, [], [], ["energy"], none, false⟩ := by decide
  have hm3 : analyze_filename "nocturnsleep 50bpm.mp3".toList =
      ⟨some 50, [], [], ["sleep"], none, false⟩ := by decide
  have hm4 : analyze_filename "nocturnenergize 50bpm.mp3".toList =
      ⟨some 50, ["nocturne"], [], ["energy"], none, false⟩ := by decide
  have hv1 : (vadOfFilename "sleep_130bpm.mp3".toList).energy_arousal = 0.7 := by
    unfold vadOfFilename
    rw [hm1]
    norm_num [estimate_vad_metrics, arousal_steps, arousal_purpose_base,
      arousal_bpm_cap, arousal_adjust, pyClamp01, round3,
      (by decide : ("sleep" : String) ≠ "energy"),
      (by decide : ("sleep" : String) ≠ "relaxation")]
  have hv2 : (vadOfFilename "energize_130bpm.mp3".toList).energy_arousal = 0.7 := by
    unfold vadOfFilename
    rw [hm2]
    norm_num [estimate_vad_metrics, arousal_steps, arousal_purpose_base,
      arousal_bpm_cap, arousal_adjust, pyClamp01, round3,
      (by decide : ("sleep" : String) ≠ "energy"),
      (by decide : ("sleep" : String) ≠ "relaxation")]
  have hv3 : (vadOfFilename "nocturnsleep 50bpm.mp3".toList).energy_arousal
      = 0.2 := by
    unfold vadOfFilename
    rw [hm3]
    norm_num [estimate_vad_metrics, arousal_steps, arousal_purpose_base,
      arousal_bpm_cap, arousal_adjust, pyClamp01, round3,
      (by decide : ("sleep" : String) ≠ "energy"),
      (by decide : ("sleep" : String) ≠ "relaxation")]
  have hv4 : (vadOfFilename "nocturnenergize 50bpm.mp3".toList).energy_arousal
      = 0.15 := by
    unfold vadOfFilename
    rw [hm4]
    norm_num [estimate_vad_metrics, arousal_steps, arousal_purpose_base,
      arousal_bpm_cap, arousal_adjust, pyClamp01, round3,
      (by decide : ("sleep" : String) ≠ "energy"),
      (by decide : ("sleep" : String) ≠ "relaxation")]
  refine ⟨by decide, hrep1, hv1, by rw [hrep1]; exact hv2, ?_, by decide, hrep2,
    hv3, by rw [hrep2]; exact hv4, ?_⟩
  · rw [hrep1, hv1, hv2]
    norm_num
  · rw [hrep2, hv3, hv4]
    norm_num

/-- C3 (amended): for every lower-case filename containing `"sleep"`,
*provided* the `sleep → energize` replacement leaves the rest of the
parsed metadata unchanged (same BPM parse and same nocturne / winter /
movement detection — the replacement can otherwise create keywords, see
the counterexample), the arousal estimate of the original is at most
that of the replacement, and strictly below it whenever no BPM above
120 is parsed. -/
theorem C3_sleep_below_energize (L : List Char)
    (hlow : pyLower L = L)
    (hs : containsSub "sleep".toList L = true)
    (hbpm : (analyze_filename (replaceSleep L)).bpm = (analyze_filename L).bpm)
    (hnoc : ("nocturne" ∈ (analyze_filename (replaceSleep L)).genres) ↔
      ("nocturne" ∈ (analyze_filename L).genres))
    (hwin : (analyze_filename (replaceSleep L)).winter_themed =
      (analyze_filename L).winter_themed)
    (hmov : (analyze_filename (replaceSleep L)).movement_number =
      (analyze_filename L).movement_number) :
    (vadOfFilename L).energy_arousal ≤
        (vadOfFilename (replaceSleep L)).energy_arousal ∧
      ((∀ b, (analyze_filename L).bpm = some b → b ≤ 120) →
        (vadOfFilename L).energy_arousal <
          (vadOfFilename (replaceSleep L)).energy_arousal) := by
  have hsw : "sleep".toList = sleepW := by decide
  have hlow' : pyLower (replaceSleep L) = replaceSleep L :=
    pyLower_fix_replaceSleep L hlow
  have hsleepL : containsSub sleepW L = true := hsw ▸ hs
  have hnosleep : containsSub sleepW (replaceSleep L) = false :=
    sleep_not_in_replaceSleep L
  have henergiz : containsSub energizW (replaceSleep L) = true :=
    energiz_in_replaceSleep L hsleepL
  have h1 : "sleep" ∈ (analyze_filename L).therapeutic_purposes := by
    simp only [analyze_filename, hlow]
    rw [hsw, hsleepL]
    simp
  have h2 : "sleep" ∉ (analyze_filename (replaceSleep L)).therapeutic_purposes := by
    simp only [analyze_filename, hlow']
    rw [hsw, hnosleep]
    have hez : "energiz".toList = energizW := by decide
    rw [hez, henergiz]
    simp
  have h3 : "energy" ∈ (analyze_filename (replaceSleep L)).therapeutic_purposes := by
    simp only [analyze_filename, hlow']
    rw [hsw, hnosleep]
    have hez : "energiz".toList = energizW := by decide
    rw [hez, henergiz]
    simp
  exact arousal_compare (analyze_filename L) (analyze_filename (replaceSleep L))
    h1 h2 h3 hbpm hnoc hwin hmov

/-- C3 witness: `"deep sleep piano.mp3"` has no parsed BPM and the
replacement changes no other metadata, so its arousal estimate is
strictly below that of `"deep energize piano.mp3"`. -/
theorem C3_sleep_below_energize_witness :
    (vadOfFilename "deep sleep piano.mp3".toList).energy_arousal <
      (vadOfFilename (replaceSleep "deep sleep piano.mp3".toList)).energy_arousal := by
  have hr : replaceSleep "deep sleep piano.mp3".toList =
      "deep energize piano.mp3".toList := by
    simp [replaceSleep, sleepW, energizeW, List.isPrefixOf]
  exact (C3_sleep_below_energize "deep sleep piano.mp3".toList (by decide) (by decide)
      (by rw [hr]; decide) (by rw [hr]; decide) (by rw [hr]; decide)
      (by rw [hr]; decide)).2
    (fun b hb => by
      have hnone : (analyze_filename "deep sleep piano.mp3".toList).bpm = none := by
        decide
      rw [hnone] at hb
      cases hb)

/-! ## C6 — key detection: highest correlation, and how ties break -/

instance : IsTrans (ℝ × String) pyDescOrder := by
  constructor
  rintro a b c (hab | ⟨hab1, hab2⟩) (hbc | ⟨hbc1, hbc2⟩)
  · exact Or.inl (lt_trans hbc hab)
  · exact Or.inl (hbc1 ▸ hab)
  · exact Or.inl (hab1.symm ▸ hbc)
  · exact Or.inr ⟨hab1.trans hbc1, le_trans hbc2 hab2⟩

instance : IsTotal (ℝ × String) pyDescOrder := by
  constructor
  intro a b
  rcases lt_trichotomy a.1 b.1 with h | h | h
  · exact Or.inr (Or.inl h)
  · rcases le_total a.2 b.2 with h2 | h2
    · exact Or.inr (Or.inr ⟨h.symm, h2⟩)
    · exact Or.inl (Or.inr ⟨h, h2⟩)
  · exact Or.inl (Or.inl h)

lemma pyDescOrder_refl (a : ℝ × String) : pyDescOrder a a :=
  Or.inr ⟨rfl, le_refl _⟩

/-- The pair that `comprehensive_camelot_analysis` selects as
`primary_key` dominates every built `(correlation, name)` pair in the
tuple order Python sorts by. -/
lemma primaryKeyOf_dominates (profile : Fin 12 → ℚ) :
    ∃ p : ℝ × String, p ∈ allCorrelations profile ∧
      p.2 = primaryKeyOf profile ∧
      ∀ q ∈ allCorrelations profile, pyDescOrder p q := by
  have hperm : List.Perm (sortedCorrelations profile) (allCorrelations profile) :=
    List.perm_insertionSort _ _
  have hsorted : List.Sorted pyDescOrder (sortedCorrelations profile) :=
    List.sorted_insertionSort _ _
  have hlen : (allCorrelations profile).length = 24 := by
    unfold allCorrelations
    simp
  cases hsc : sortedCorrelations profile with
  | nil =>
    exfalso
    have := hperm.length_eq
    rw [hsc, hlen] at this
    simp at this
  | cons p t =>
    refine ⟨p, hperm.mem_iff.mp (by rw [hsc] ; exact List.mem_cons_self _ _), ?_, ?_⟩
    · unfold primaryKeyOf detect_key_candidates
      rw [hsc]
      simp
    · intro q hq
      rcases (hperm.mem_iff.mpr hq : q ∈ sortedCorrelations profile) with hq'
      rw [hsc] at hq'
      rcases List.mem_cons.mp hq' with rfl | hqt
      · exact pyDescOrder_refl _
      · rw [hsc] at hsorted
        exact List.rel_of_sorted_cons hsorted _ hqt

/-- C6 (amended): the key detection of `detect_key_candidates` /
`comprehensive_camelot_analysis` selects a rotation/mode pair of maximal
correlation, but an exact correlation tie is broken by Python's tuple
sort toward the lexicographically *greatest* key-name string — not by
insertion order. -/
theorem C6_key_selection (profile : Fin 12 → ℚ) :
    ∃ c : ℝ, (c, primaryKeyOf profile) ∈ allCorrelations profile ∧
      ∀ q ∈ allCorrelations profile,
        q.1 < c ∨ (q.1 = c ∧ q.2 ≤ primaryKeyOf profile) := by
  obtain ⟨p, hmem, hname, hdom⟩ := primaryKeyOf_dominates profile
  refine ⟨p.1, ?_, fun q hq => ?_⟩
  · rw [← hname]
    exact hmem
  · rcases hdom q hq with h | ⟨h1, h2⟩
    · exact Or.inl h
    · exact Or.inr ⟨h1.symm, hname ▸ h2⟩

lemma varSum_const : varSum (fun _ : Fin 12 => (1 : ℚ)) = 0 := by
  unfold varSum meanQ
  norm_num

lemma corrOrZero_const_left (y : Fin 12 → ℚ) :
    corrOrZero (fun _ : Fin 12 => (1 : ℚ)) y = 0 := by
  unfold corrOrZero
  rw [if_pos (Or.inl varSum_const)]

/-- C6 counterexample: on a constant chroma profile every
`np.corrcoef` is NaN, hence every stored correlation is the replaced
`0.0` — a 24-way exact tie.  The claim's tie-break ("insertion order,
first major/minor pair scanned wins") would select `"C major"`, the
first pair built; the source's `sort(reverse=True)` on
`(correlation, name)` tuples instead yields `"G# minor"`, the
lexicographically greatest key name. -/
theorem C6_tie_not_broken_by_insertion_order :
    (∀ q ∈ allCorrelations (fun _ : Fin 12 => (1 : ℚ)), q.1 = 0) ∧
      (allCorrelations (fun _ : Fin 12 => (1 : ℚ))).head? =
        some (0, "C major") ∧
      primaryKeyOf (fun _ : Fin 12 => (1 : ℚ)) = "G# minor" ∧
      ("G# minor" : String) ≠ "C major" := by
  have hrange : List.range 12 = [0, 1, 2, 3, 4, 5, 6, 7, 8, 9, 10, 11] := by decide
  have hzero : ∀ q ∈ allCorrelations (fun _ : Fin 12 => (1 : ℚ)), q.1 = 0 := by
    intro q hq
    unfold allCorrelations at hq
    rcases List.mem_append.mp hq with hq | hq <;>
    · obtain ⟨i, _, rfl⟩ := List.mem_map.mp hq
      exact corrOrZero_const_left _
  have hnames : (allCorrelations (fun _ : Fin 12 => (1 : ℚ))).map Prod.snd =
      ["C major", "C# major", "D major", "D# major", "E major", "F major",
        "F# major", "G major", "G# major", "A major", "A# major", "B major",
        "C minor", "C# minor", "D minor", "D# minor", "E minor", "F minor",
        "F# minor", "G minor", "G# minor", "A minor", "A# minor", "B minor"] := by
    unfold allCorrelations
    rw [hrange]
    simp [key_names]
  refine ⟨hzero, ?_, ?_, by decide⟩
  · unfold allCorrelations
    rw [hrange]
    simp [key_names, corrOrZero_const_left]
  · obtain ⟨p, hmem, hname, hdom⟩ :=
      primaryKeyOf_dominates (fun _ : Fin 12 => (1 : ℚ))
    have hp0 : p.1 = 0 := hzero p hmem
    have hle : ∀ n ∈ (allCorrelations (fun _ : Fin 12 => (1 : ℚ))).map Prod.snd,
        n ≤ p.2 := by
      intro n hn
      obtain ⟨q, hq, rfl⟩ := List.mem_map.mp hn
      rcases hdom q hq with h | ⟨_, h2⟩
      · exact absurd (hp0 ▸ hzero q hq ▸ h) (lt_irrefl _)
      · exact h2
    have hpin : p.2 ∈ (allCorrelations (fun _ : Fin 12 => (1 : ℚ))).map Prod.snd :=
      List.mem_map_of_mem _ hmem
    have hmax : ∀ n ∈ (allCorrelations (fun _ : Fin 12 => (1 : ℚ))).map Prod.snd,
        n ≤ "G# minor" := by
      rw [hnames]
      intro n hn
      rw [← not_lt, String.lt_iff_toList_lt]
      fin_cases hn <;> decide
    have h1 : p.2 ≤ "G# minor" := hmax _ hpin
    have h2 : "G# minor" ≤ p.2 := by
      apply hle
      rw [hnames]
      simp
    rw [← hname]
    exact le_antisymm h1 h2

/-! ## C5 — re-running a batch adds no duplicate entries -/

/-- Invariant of the per-file loop: names stay duplicate-free, and every
produced entry either was loaded or is a newly analyzed file outside the
skip set. -/
lemma process_all_files_invariant (an : String → Option AnalysisEntry)
    (han : ∀ f e, an f = some e → e.filename = f) (processed : List String) :
    ∀ (files : List String) (acc : List AnalysisEntry),
      (acc.map AnalysisEntry.filename).Nodup →
      files.Nodup →
      (∀ f ∈ files, f ∉ processed → f ∉ acc.map AnalysisEntry.filename) →
      ((process_all_files processed acc files an).map AnalysisEntry.filename).Nodup ∧
        ∀ e ∈ process_all_files processed acc files an,
          e ∈ acc ∨ (e.filename ∈ files ∧ e.filename ∉ processed)
  | [], acc, hacc, _, _ => by
    refine ⟨hacc, fun e he => .inl ?_⟩
    simpa [process_all_files] using he
  | f :: files, acc, hacc, hnd, hfresh => by
    have hnd' : files.Nodup := hnd.of_cons
    have hf_notin : f ∉ files := (List.nodup_cons.mp hnd).1
    by_cases hp : f ∈ processed
    · have step : process_all_files processed acc (f :: files) an =
          process_all_files processed acc files an := by
        simp [process_all_files, List.foldl_cons, hp]
      rw [step]
      obtain ⟨h1, h2⟩ := process_all_files_invariant an han processed files acc hacc hnd'
        (fun g hg => hfresh g (List.mem_cons_of_mem _ hg))
      exact ⟨h1, fun e he => (h2 e he).imp id fun ⟨hm, hq⟩ =>
        ⟨List.mem_cons_of_mem _ hm, hq⟩⟩
    · cases hana : an f with
      | none =>
        have step : process_all_files processed acc (f :: files) an =
            process_all_files processed acc files an := by
          simp [process_all_files, List.foldl_cons, hp, hana]
        rw [step]
        obtain ⟨h1, h2⟩ := process_all_files_invariant an han processed files acc hacc hnd'
          (fun g hg => hfresh g (List.mem_cons_of_mem _ hg))
        exact ⟨h1, fun e he => (h2 e he).imp id fun ⟨hm, hq⟩ =>
          ⟨List.mem_cons_of_mem _ hm, hq⟩⟩
      | some a =>
        have hname : a.filename = f := han f a hana
        have step : process_all_files processed acc (f :: files) an =
            process_all_files processed (acc ++ [a]) files an := by
          simp [process_all_files, List.foldl_cons, hp, hana]
        rw [step]
        have hfa : f ∉ acc.map AnalysisEntry.filename :=
          hfresh f (List.mem_cons_self _ _) hp
        have hacc' : ((acc ++ [a]).map AnalysisEntry.filename).Nodup := by
          rw [List.map_append, List.nodup_append]
          refine ⟨hacc, by simp, ?_⟩
          intro x hx
          simp only [List.map_cons, List.map_nil, List.mem_cons,
            List.not_mem_nil, or_false, hname]
          intro hxf
          exact hfa (hxf ▸ hx)
        have hfresh' : ∀ g ∈ files, g ∉ processed →
            g ∉ (acc ++ [a]).map AnalysisEntry.filename := by
          intro g hg hgp
          rw [List.map_append]
          simp only [List.mem_append, List.map_cons, List.map_nil,
            List.mem_cons, List.not_mem_nil, or_false, hname]
          rintro (hin | hgf)
          · exact hfresh g (List.mem_cons_of_mem _ hg) hgp hin
          · exact hf_notin (hgf ▸ hg)
        obtain ⟨h1, h2⟩ := process_all_files_invariant an han processed files
          (acc ++ [a]) hacc' hnd' hfresh'
        refine ⟨h1, fun e he => ?_⟩
        rcases h2 e he with hin | ⟨hm, hq⟩
        · rcases List.mem_append.mp hin with hin | hin
          · exact .inl hin
          · refine .inr ?_
            have : e = a := by simpa using hin
            subst this
            exact ⟨by simp [hname], hname ▸ hp⟩
        · exact .inr ⟨List.mem_cons_of_mem _ hm, hq⟩

/-- C5: running the batch loop against the entries loaded from an
unchanged report (whose filenames are distinct and which populate the
skip set) adds no duplicates: the resulting list has each filename at
most once, and everything beyond the loaded entries is a file whose name
was not in the loaded report. -/
theorem C5_rerun_no_duplicates (an : String → Option AnalysisEntry)
    (han : ∀ f e, an f = some e → e.filename = f)
    (report : List AnalysisEntry) (files : List String)
    (hrep : (report.map AnalysisEntry.filename).Nodup) (hfiles : files.Nodup) :
    ((process_all_files (report.map AnalysisEntry.filename) report files
        an).map AnalysisEntry.filename).Nodup ∧
      ∀ e ∈ process_all_files (report.map AnalysisEntry.filename) report files an,
        e ∈ report ∨ e.filename ∉ report.map AnalysisEntry.filename := by
  obtain ⟨h1, h2⟩ := process_all_files_invariant an han
    (report.map AnalysisEntry.filename) files report hrep hfiles
    (fun f _ hf => hf)
  exact ⟨h1, fun e he => (h2 e he).imp id And.right⟩

/-- C5 witness: a second run over a two-file directory whose first file
is already in the report. -/
theorem C5_rerun_no_duplicates_witness :
    ((process_all_files
          (([⟨"a.mp3"⟩] : List AnalysisEntry).map AnalysisEntry.filename)
          [⟨"a.mp3"⟩] ["a.mp3", "b.mp3"]
          (fun f => some ⟨f⟩)).map AnalysisEntry.filename).Nodup ∧
      ∀ e ∈ process_all_files
          (([⟨"a.mp3"⟩] : List AnalysisEntry).map AnalysisEntry.filename)
          [⟨"a.mp3"⟩] ["a.mp3", "b.mp3"] (fun f => some ⟨f⟩),
        e ∈ ([⟨"a.mp3"⟩] : List AnalysisEntry) ∨
          e.filename ∉ ([⟨"a.mp3"⟩] : List AnalysisEntry).map AnalysisEntry.filename :=
  C5_rerun_no_duplicates (fun f => some ⟨f⟩)
    (fun _ _ h => by cases h; rfl) [⟨"a.mp3"⟩] ["a.mp3", "b.mp3"]
    (by decide) (by decide)

/-! ## C9 — per-file exceptions are caught, files skipped, never retried -/

/-- The appending fold over files equals `filterMap` of the caught
analysis: each file contributes its (at most one) successful record, in
order. -/
lemma process_batch_foldl (g : String → Option AnalysisEntry) :
    ∀ (files : List String) (acc : List AnalysisEntry),
      files.foldl
          (fun acc f => match g f with | some a => acc ++ [a] | none => acc) acc =
        acc ++ files.filterMap g
  | [], acc => by simp
  | f :: files, acc => by
    cases hg : g f with
    | none => simp [List.foldl_cons, hg, process_batch_foldl g files acc]
    | some a =>
      simp [List.foldl_cons, hg, process_batch_foldl g files (acc ++ [a])]

/-- C9: the batch loop is the `filterMap` of the caught per-file
analysis — every file is visited exactly once in order (no retries) and
contributes nothing when its analysis raised; the `try`/`except` wrapper
converts any raised exception into the skip marker `None` and returns
the record otherwise, so no per-file exception escapes the loop. -/
theorem C9_exceptions_skip_file (body : String → Except String AnalysisEntry)
    (files : List String) :
    process_batch body files = files.filterMap (analyze_track body) ∧
      (∀ f err, body f = .error err → analyze_track body f = none) ∧
      ∀ f a, body f = .ok a → analyze_track body f = some a := by
  refine ⟨?_, ?_, ?_⟩
  · unfold process_batch
    simpa using process_batch_foldl (analyze_track body) files []
  · intro f err h
    simp [analyze_track, h]
  · intro f a h
    simp [analyze_track, h]

/-- C9 witness: a batch in which the middle file's decoding raises — it
is omitted, the others are analyzed once each, and the loop completes. -/
theorem C9_exceptions_skip_file_witness :
    process_batch
        (fun f => if f = "bad.mp3" then .error "decode failure" else .ok ⟨f⟩)
        ["a.mp3", "bad.mp3", "c.mp3"] =
      [⟨"a.mp3"⟩, ⟨"c.mp3"⟩] ∧
      analyze_track
        (fun f => if f = "bad.mp3" then .error "decode failure" else .ok ⟨f⟩)
        "bad.mp3" = none := by
  have h := C9_exceptions_skip_file
    (fun f => if f = "bad.mp3" then .error "decode failure" else .ok ⟨f⟩)
    ["a.mp3", "bad.mp3", "c.mp3"]
  refine ⟨?_, h.2.1 "bad.mp3" "decode failure" (by simp)⟩
  rw [h.1]
  simp [analyze_track]

/-! ## C7 — tag classifier output: sorted and duplicate-free? -/

/-- C7 counterexample: `determine_therapeutic_applications`
(run_complete_vad_analysis.py) returns `list(set(applications))`, whose
order is CPython's salted-hash set order; for VAD `(0.5, 0.8, 0.5)` the
accumulated tags are `energy_boost, motivation, exercise, focus`, and an
admissible set enumeration (`motivation` first) is not sorted — the
source guarantees no sorted order for this classifier. -/
theorem C7_set_order_not_sorted :
    pySetList (determine_therapeutic_applications 0.5 0.8 0.5)
        ["motivation", "energy_boost", "exercise", "focus"] ∧
      ¬ List.Sorted (· ≤ ·)
        (["motivation", "energy_boost", "exercise", "focus"] : List String) := by
  have hxs : determine_therapeutic_applications 0.5 0.8 0.5 =
      ["energy_boost", "motivation", "exercise", "focus"] := by
    norm_num [determine_therapeutic_applications]
  have hlt : ("energy_boost" : String) < "motivation" := by
    rw [String.lt_iff_toList_lt]
    decide
  refine ⟨⟨by decide, ?_⟩, fun hs => ?_⟩
  · intro s
    rw [hxs]
    simp only [List.mem_cons, List.not_mem_nil, or_false]
    tauto
  · exact absurd (List.rel_of_sorted_cons hs _ (by simp)) (not_le.mpr hlt)

/-- C7 (amended): `determine_comprehensive_therapeutic_applications`
(complete_vad_camelot_processor.py) returns, for every VAD/tempo/mode
input, a list of tags sorted ascending and free of duplicates; the
`list(set(...))` classifier of run_complete_vad_analysis.py returns its
tags duplicate-free but in unspecified set order, not necessarily
sorted. -/
theorem C7_sorted_dedup (v a d t : ℚ) (mode : String) :
    List.Sorted (· ≤ ·)
        (determine_comprehensive_therapeutic_applications v a d t mode) ∧
      (determine_comprehensive_therapeutic_applications v a d t mode).Nodup ∧
      ∀ out, pySetList (determine_therapeutic_applications v a d) out →
        out.Nodup := by
  refine ⟨?_, ?_, fun out h => h.1⟩
  · exact List.sorted_insertionSort _ _
  · exact (List.perm_insertionSort _ _).nodup_iff.mpr (List.nodup_dedup _)

/-- C7 witness: the sorted/deduplicated properties at VAD
`(0.5, 0.2, 0.5)`, tempo `100`, minor mode, with the set enumerated in
first-insertion order. -/
theorem C7_sorted_dedup_witness :
    List.Sorted (· ≤ ·)
        (determine_comprehensive_therapeutic_applications 0.5 0.2 0.5 100 "minor") ∧
      (determine_comprehensive_therapeutic_applications 0.5 0.2 0.5 100 "minor").Nodup ∧
      ((determine_therapeutic_applications 0.5 0.2 0.5).dedup).Nodup := by
  have h := C7_sorted_dedup 0.5 0.2 0.5 100 "minor"
  exact ⟨h.1, h.2.1, h.2.2 _ ⟨List.nodup_dedup _, fun s => List.mem_dedup⟩⟩

/-! ## C4 — determinism of the filename heuristic across runs -/

/-- C4 counterexample: the per-file analysis of `analyze_new_files`
(analyze_new_uploads.py) feeds `hash(title)` into the VAD offsets, the
estimated Camelot key and the BPM estimate.  CPython salts string hashes
per process, so two program runs realize two different hash functions;
under hash value `0` the file gets key `"1B"` and BPM `60`, under hash
value `1` it gets key `"2A"` and BPM `61` — the outputs differ, refuting
determinism across runs. -/
theorem C4_not_deterministic_across_runs :
    (analyze_upload (fun _ => 0) "calm sleep_17549127090.mp3".toList).estimated_key
        = "1B" ∧
      (analyze_upload (fun _ => 1) "calm sleep_17549127090.mp3".toList).estimated_key
        = "2A" ∧
      (analyze_upload (fun _ => 0) "calm sleep_17549127090.mp3".toList).bpm_estimate
        = 60 ∧
      (analyze_upload (fun _ => 1) "calm sleep_17549127090.mp3".toList).bpm_estimate
        = 61 ∧
      analyze_upload (fun _ => 0) "calm sleep_17549127090.mp3".toList ≠
        analyze_upload (fun _ => 1) "calm sleep_17549127090.mp3".toList := by
  refine ⟨by decide, by decide, by decide, by decide, fun hcontra => ?_⟩
  have hb : (analyze_upload (fun _ => 0) "calm sleep_17549127090.mp3".toList).bpm_estimate
      = (analyze_upload (fun _ => 1) "calm sleep_17549127090.mp3".toList).bpm_estimate := by
    rw [hcontra]
  have h60 : (analyze_upload (fun _ => 0) "calm sleep_17549127090.mp3".toList).bpm_estimate
      = 60 := by decide
  have h61 : (analyze_upload (fun _ => 1) "calm sleep_17549127090.mp3".toList).bpm_estimate
      = 61 := by decide
  rw [h60, h61] at hb
  exact absurd hb (by decide)

/-- C4 (amended): the routine is pure and deterministic given the
filename *and* the process's hash of its title: any two evaluations,
even under different hash seeds, agree whenever the stripped titles
agree and the observed title hashes agree. -/
theorem C4_deterministic_given_hash (h₁ h₂ : List Char → ℤ) (f₁ f₂ : List Char)
    (ht : stripTimestamp f₁ = stripTimestamp f₂)
    (hh : h₁ (stripTimestamp f₁) = h₂ (stripTimestamp f₂)) :
    analyze_upload h₁ f₁ = analyze_upload h₂ f₂ := by
  unfold analyze_upload
  rw [ht] at hh ⊢
  rw [hh]

/-- C4 witness: two filenames with equal stripped titles and runs whose
hash functions agree on that title produce identical records. -/
theorem C4_deterministic_given_hash_witness :
    analyze_upload (fun _ => 5) "a_17549127091.mp3".toList =
      analyze_upload (fun _ => 5) "a_175491270999.mp3".toList :=
  C4_deterministic_given_hash (fun _ => 5) (fun _ => 5)
    "a_17549127091.mp3".toList "a_175491270999.mp3".toList (by decide) (by decide)

end NeuroTunes
